import Mathlib

/-!
Shallow embedding of the grav1 coordinator (src/project.py) and client
(src/client.py): the project/scene/job data model, the registry operations
`get_job`, `hit`, `check_job`, `save_projects`, the project lifecycle
operations `start` and `complete`, the client upload-queue retry loop and
the worker-pool shrink checks.  Python dicts are modelled as association
lists (insertion-ordered, like Python dicts), the filesystem as an explicit
`Disk` value, and wall-clock time as an explicit `now : Nat` parameter.
-/

/-! ### Association-list helpers (Python dict semantics) -/

/-- Insertion into a Python dict: replace in place when the key is present,
otherwise append at the end (Python dicts preserve insertion order). -/
def dictInsert {α : Type} : List (String × α) → String → α → List (String × α)
  | [], k, v => [(k, v)]
  | (k', v') :: rest, k, v =>
      if k' = k then (k, v) :: rest else (k', v') :: dictInsert rest k v

/-- Update the value at a key in place, when present (Python
`d[k].field = ...` style in-place mutation of the stored record). -/
def updKey {α : Type} (k : String) (f : α → α) : List (String × α) → List (String × α)
  | [] => []
  | (k', v) :: rest =>
      if k' = k then (k', f v) :: rest else (k', v) :: updKey k f rest

/-- Deletion from a Python dict (`del d[k]`). -/
def removeKey {α : Type} (k : String) : List (String × α) → List (String × α)
  | [] => []
  | (k', v) :: rest =>
      if k' = k then rest else (k', v) :: removeKey k rest

/-- Lookup in a Python dict (`d[k]`, `k in d`). -/
def dictGet {α : Type} (l : List (String × α)) (k : String) : Option α :=
  match l with
  | [] => none
  | (k', v) :: rest => if k' = k then some v else dictGet rest k

/-- Python `os.path.join` restricted to the forward-slash case used here. -/
def joinPath (a b : String) : String := a ++ "/" ++ b

theorem dictGet_dictInsert_self {α : Type} (l : List (String × α)) (k : String) (v : α) :
    dictGet (dictInsert l k v) k = some v := by
  induction l with
  | nil => simp [dictInsert, dictGet]
  | cons hd tl ih =>
      obtain ⟨k', v'⟩ := hd
      by_cases h : k' = k
      · simp [dictInsert, dictGet, h]
      · simp [dictInsert, dictGet, h, ih]

theorem dictGet_updKey_self {α : Type} (l : List (String × α)) (k : String) (f : α → α) :
    dictGet (updKey k f l) k = (dictGet l k).map f := by
  induction l with
  | nil => simp [updKey, dictGet]
  | cons hd tl ih =>
      obtain ⟨k', v'⟩ := hd
      by_cases h : k' = k
      · simp [updKey, dictGet, h]
      · simp [updKey, dictGet, h, ih]

theorem dictGet_eq_none {α : Type} {l : List (String × α)} {k : String}
    (h : k ∉ l.map Prod.fst) : dictGet l k = none := by
  induction l with
  | nil => simp [dictGet]
  | cons hd tl ih =>
      obtain ⟨k', v'⟩ := hd
      simp only [List.map_cons, List.mem_cons] at h
      push_neg at h
      have hne : ¬ (k' = k) := fun he => h.1 he.symm
      simp only [dictGet, if_neg hne]
      exact ih h.2

theorem dictGet_removeKey_self {α : Type} (l : List (String × α)) (k : String)
    (hnd : (l.map Prod.fst).Nodup) :
    dictGet (removeKey k l) k = none := by
  induction l with
  | nil => simp [removeKey, dictGet]
  | cons hd tl ih =>
      obtain ⟨k', v'⟩ := hd
      simp only [List.map_cons, List.nodup_cons] at hnd
      by_cases h : k' = k
      · subst h
        simp only [removeKey, if_pos rfl]
        exact dictGet_eq_none hnd.1
      · simp only [removeKey, if_neg h, dictGet, if_neg h]
        exact ih hnd.2

/-! ### Filesystem model -/

/-- Model of the pieces of the filesystem the coordinator touches: a map
from file path to file size, plus the set of directories known to exist. -/
structure Disk where
  files : List (String × Nat) := []
  dirs : List String := []
  deriving Repr, DecidableEq

/-- Python `os.path.isfile`. -/
def Disk.isfile (d : Disk) (p : String) : Bool := (dictGet d.files p).isSome

/-- Python `os.stat(p).st_size`, as an `Option` (raises when the path is absent). -/
def Disk.statSize (d : Disk) (p : String) : Option Nat := dictGet d.files p

/-- Python `os.path.isdir`. -/
def Disk.isdir (d : Disk) (p : String) : Bool := d.dirs.contains p

/-- Character-level string prefix test (computationally transparent). -/
def strHasPrefix (pre s : String) : Bool := pre.data.isPrefixOf s.data

/-- Python `os.listdir dir`: the files whose path lies under `dir`. -/
def Disk.listdir (d : Disk) (dir : String) : List String :=
  (d.files.filter (fun f => strHasPrefix (dir ++ "/") f.1)).map Prod.fst

/-- Python `os.makedirs(p, exist_ok=True)`. -/
def Disk.makedirs (d : Disk) (p : String) : Disk :=
  if d.dirs.contains p then d else { d with dirs := p :: d.dirs }

/-- Writing a file of a given size (`file.save(path)`). -/
def Disk.write (d : Disk) (p : String) (sz : Nat) : Disk :=
  { d with files := dictInsert d.files p sz }

/-- Python `os.remove`. -/
def Disk.removeFile (d : Disk) (p : String) : Disk :=
  { d with files := removeKey p d.files }

/-! ### Data model (src/project.py) -/

/-- One scene record of `Project.scenes` (a dict in the source):
`start`, `frames`, `segment`, `filesize`, and whether the split verifier
put a `"bad"` key on it. -/
structure Scene where
  start : Nat
  frames : Nat
  segment : String
  filesize : Nat
  bad : Bool := false
  deriving Repr, DecidableEq

/-- The `Job` class of src/project.py lines 328-341. -/
structure Job where
  projectid : String
  scene : String
  encoder : String
  path : String
  encoded_filename : String
  encoder_params : String
  ffmpeg_params : String
  workers : List String
  priority : Int
  startFrame : Nat
  frames : Nat
  deriving Repr, DecidableEq

/-- The `Job.__init__` constructor: `workers` starts empty; the argument
order follows the source (`start` is the first frame offset). -/
def Job.init (projectid scene encoder path encoded_filename : String)
    (priority : Int) (encoder_params ffmpeg_params : String)
    (startFrame frames : Nat) : Job :=
  { projectid := projectid, scene := scene, encoder := encoder, path := path,
    encoded_filename := encoded_filename, encoder_params := encoder_params,
    ffmpeg_params := ffmpeg_params, workers := [], priority := priority,
    startFrame := startFrame, frames := frames }

/-- The `Project` class state (src/project.py lines 199-226). -/
structure Project where
  projectid : String
  path_in : String
  path_out : String
  path_split : String
  path_encode : String
  status : String
  jobs : List (String × Job)
  min_frames : Int
  max_frames : Int
  encoder : String
  encoder_params : String
  ffmpeg_params : String
  scenes : List (String × Scene)
  total_jobs : Nat
  priority : Int
  stopped : Bool
  input_total_frames : Nat
  total_frames : Nat
  encoded_frames : Nat
  action : String
  deriving Repr, DecidableEq

/-- The `Project.__init__` constructor defaults (src/project.py lines 200-226). -/
def Project.init (filename path_out path_split path_encode encoder encoder_params : String)
    (ffmpeg_params : String := "") (min_frames : Int := -1) (max_frames : Int := -1)
    (scenes : List (String × Scene) := []) (total_frames : Nat := 0)
    (priority : Int := 0) (id : String := "0") : Project :=
  { projectid := id, path_in := filename, path_out := path_out,
    path_split := path_split, path_encode := path_encode,
    status := "starting", jobs := [], min_frames := min_frames,
    max_frames := max_frames, encoder := encoder,
    encoder_params := encoder_params, ffmpeg_params := ffmpeg_params,
    scenes := scenes, total_jobs := 0, priority := priority, stopped := false,
    input_total_frames := total_frames, total_frames := 0,
    encoded_frames := 0, action := "" }

/-- `Project.get_encoded_filename` (src/project.py line 314). -/
def Project.get_encoded_filename (scene_n : String) : String := scene_n ++ ".ivf"

/-- `Project.get_frames` (src/project.py lines 228-229): total frames of the
scenes whose `filesize` is nonzero. -/
def Project.get_frames (p : Project) : Nat :=
  ((p.scenes.filter (fun s => s.2.filesize ≠ 0)).map (fun s => s.2.frames)).sum

/-- `Project.set_status` (src/project.py line 311). -/
def Project.set_status (p : Project) (msg : String) : Project :=
  { p with status := msg }

/-- Concatenation of the encoded segments (`Project.concat`,
src/project.py lines 317-326): the work is an external ffmpeg invocation
whose only effect on the project record is transient status strings that
`complete` immediately overwrites, so it is modelled as the identity on the
project record. -/
def Project.concat (p : Project) : Project := p

/-- `Project.complete` (src/project.py lines 302-309): when the job map is
empty and every frame is accounted for, concatenate and move to status
`"complete"`. -/
def Project.complete (p : Project) : Project :=
  if p.jobs.length = 0 ∧ p.get_frames = p.total_frames then
    let p := p.set_status "done! joining files"
    let p := p.concat
    p.set_status "complete"
  else p

/-! ### Registry state (class Projects) -/

/-- An entry of the registry action queue: the queued closures are
`project.split` and `project.complete` (plus the configured on-complete
action wrapper), identified here by tag and project id. -/
inductive RegistryAction where
  | split (projectid : String)
  | complete (projectid : String)
  deriving Repr, DecidableEq

/-- Serialized form of one project in `projects.json`
(src/project.py lines 163-174). -/
structure SavedProject where
  priority : Int
  path_in : String
  encoder_params : String
  ffmpeg_params : String
  min_frames : Int
  max_frames : Int
  encoder : String
  input_frames : Nat
  on_complete : String
  deriving Repr, DecidableEq

/-- Serialization of a project for the persisted index. -/
def Project.serialize (p : Project) : SavedProject :=
  { priority := p.priority, path_in := p.path_in,
    encoder_params := p.encoder_params, ffmpeg_params := p.ffmpeg_params,
    min_frames := p.min_frames, max_frames := p.max_frames,
    encoder := p.encoder, input_frames := p.input_total_frames,
    on_complete := p.action }

/-- The mutable state of the `Projects` registry: the project map, the
telemetry window, the action queue, and the persisted files
(`projects.json` and one `scenes/{pid}.json` per project). -/
structure ProjectsState where
  projects : List (String × Project)
  telemetry_encodes : List (Nat × Nat) := []
  telemetry_fph : Nat := 0
  telemetry_fph_time : Nat := 0
  action_queue : List RegistryAction := []
  persistedIndex : List (String × SavedProject) := []
  persistedScenes : List (String × List (String × Scene)) := []
  deriving Repr, DecidableEq

/-- `Projects.add_action` (src/project.py lines 27-31): append to the FIFO
action queue (the event-set is part of the threading runtime, not
modelled). -/
def ProjectsState.add_action (st : ProjectsState) (a : RegistryAction) : ProjectsState :=
  { st with action_queue := st.action_queue ++ [a] }

/-- `Projects.save_projects` (src/project.py lines 159-177): rewrite the
persisted index and every per-project scenes file from the live state. -/
def ProjectsState.save_projects (st : ProjectsState) : ProjectsState :=
  { st with
    persistedIndex := st.projects.map (fun pp => (pp.1, pp.2.serialize)),
    persistedScenes := st.projects.map (fun pp => (pp.1, pp.2.scenes)) }

/-- `Projects.hit` (src/project.py lines 62-68): drop telemetry samples
older than an hour, append the new `(frames, now)` sample, and recompute
the frames-per-hour aggregate. -/
def ProjectsState.hit (st : ProjectsState) (now : Nat) (frames : Nat) : ProjectsState :=
  let encodes := st.telemetry_encodes.filter (fun x => now - x.2 < 3600)
  let encodes := encodes ++ [(frames, now)]
  { st with
    telemetry_encodes := encodes,
    telemetry_fph := (encodes.map Prod.fst).sum,
    telemetry_fph_time := now }

/-! ### Job assignment (Projects.get_job) -/

/-- Sort key of `Projects.get_job`: `(x.priority, len(x.workers), x.frames)`. -/
def Job.sortKey (j : Job) : Int × Nat × Nat := (j.priority, j.workers.length, j.frames)

/-- Lexicographic comparison on the `get_job` sort key, the order Python's
tuple `sorted` uses. -/
def jobKeyLE (a b : Int × Nat × Nat) : Bool :=
  decide (a.1 < b.1 ∨ (a.1 = b.1 ∧
    (a.2.1 < b.2.1 ∨ (a.2.1 = b.2.1 ∧ a.2.2 ≤ b.2.2))))

/-- Comparison used to sort the gathered jobs. -/
def jobLE (a b : Job) : Bool := jobKeyLE a.sortKey b.sortKey

/-- Exclusion test of `Projects.get_job` line 57: the job matches a
`skip_jobs` entry when the scene and the (stringified) project id agree;
a skip entry is a `(projectid, scene)` pair. -/
def jobExcluded (skip_jobs : List (String × String)) (j : Job) : Bool :=
  skip_jobs.any (fun j2 => j.scene = j2.2 ∧ j.projectid = j2.1)

/-- All jobs gathered across all projects (src/project.py lines 51-55). -/
def ProjectsState.all_jobs (st : ProjectsState) : List Job :=
  (st.projects.map (fun pp => pp.2.jobs.map Prod.snd)).flatten

/-- `Projects.get_job` (src/project.py lines 50-60): filter out excluded
jobs, sort by `(priority, len(workers), frames)`, return the first if any.
The registry state is returned unchanged: the source mutates nothing here. -/
def ProjectsState.get_job (st : ProjectsState) (skip_jobs : List (String × String)) :
    Option Job × ProjectsState :=
  let all_jobs := st.all_jobs
  let all_jobs := all_jobs.filter (fun j => ¬ jobExcluded skip_jobs j)
  let all_jobs := all_jobs.mergeSort jobLE
  (all_jobs.head?, st)

theorem jobLE_trans (a b c : Job) (hab : jobLE a b = true) (hbc : jobLE b c = true) :
    jobLE a c = true := by
  simp only [jobLE, jobKeyLE, decide_eq_true_eq] at *
  rcases hab with h1 | ⟨e1, h1⟩
  · rcases hbc with h2 | ⟨e2, h2⟩
    · exact Or.inl (lt_trans h1 h2)
    · exact Or.inl (e2 ▸ h1)
  · rcases hbc with h2 | ⟨e2, h2⟩
    · exact Or.inl (e1 ▸ h2)
    · refine Or.inr ⟨e1.trans e2, ?_⟩
      rcases h1 with h1 | ⟨f1, h1⟩
      · rcases h2 with h2 | ⟨f2, h2⟩
        · exact Or.inl (lt_trans h1 h2)
        · exact Or.inl (f2 ▸ h1)
      · rcases h2 with h2 | ⟨f2, h2⟩
        · exact Or.inl (f1 ▸ h2)
        · exact Or.inr ⟨f1.trans f2, le_trans h1 h2⟩

theorem jobLE_total (a b : Job) : (jobLE a b || jobLE b a) = true := by
  simp only [jobLE, jobKeyLE, Bool.or_eq_true, decide_eq_true_eq]
  rcases lt_trichotomy a.sortKey.1 b.sortKey.1 with h | h | h
  · exact Or.inl (Or.inl h)
  · rcases lt_trichotomy a.sortKey.2.1 b.sortKey.2.1 with h2 | h2 | h2
    · exact Or.inl (Or.inr ⟨h, Or.inl h2⟩)
    · rcases le_total a.sortKey.2.2 b.sortKey.2.2 with h3 | h3
      · exact Or.inl (Or.inr ⟨h, Or.inr ⟨h2, h3⟩⟩)
      · exact Or.inr (Or.inr ⟨h.symm, Or.inr ⟨h2.symm, h3⟩⟩)
    · exact Or.inr (Or.inr ⟨h.symm, Or.inl h2⟩)
  · exact Or.inr (Or.inl h)

theorem jobLE_refl (a : Job) : jobLE a a = true := by
  simp [jobLE, jobKeyLE]

/-- C1: `Projects.get_job` returns `none` exactly when every job across all
projects is in the exclusion set; otherwise it returns a non-excluded job
that is minimal under the lexicographic `(priority, len(workers), frames)`
order among all non-excluded jobs; and it leaves the registry state
untouched (stateless selection, no claiming). -/
theorem get_job_spec (st : ProjectsState) (skip_jobs : List (String × String)) :
    (st.get_job skip_jobs).2 = st ∧
    ((st.get_job skip_jobs).1 = none ↔
      ∀ j ∈ st.all_jobs, jobExcluded skip_jobs j = true) ∧
    (∀ j, (st.get_job skip_jobs).1 = some j →
      j ∈ st.all_jobs ∧ jobExcluded skip_jobs j = false ∧
      ∀ j' ∈ st.all_jobs, jobExcluded skip_jobs j' = false →
        jobKeyLE j.sortKey j'.sortKey = true) := by
  refine ⟨rfl, ?_, ?_⟩
  · simp only [ProjectsState.get_job, List.head?_eq_none_iff]
    constructor
    · intro hnil j hj
      by_contra hex
      have hmem : j ∈ (st.all_jobs.filter (fun j => ¬ jobExcluded skip_jobs j)).mergeSort jobLE := by
        rw [List.Perm.mem_iff (List.mergeSort_perm _ _)]
        exact List.mem_filter.mpr ⟨hj, by simp [hex]⟩
      rw [hnil] at hmem
      exact absurd hmem (List.not_mem_nil j)
    · intro hall
      have : st.all_jobs.filter (fun j => ¬ jobExcluded skip_jobs j) = [] := by
        rw [List.filter_eq_nil_iff]
        intro j hj
        simp [hall j hj]
      rw [this]
      simp
  · intro j hj
    simp only [ProjectsState.get_job] at hj
    cases hl : (st.all_jobs.filter (fun j => ¬ jobExcluded skip_jobs j)).mergeSort jobLE with
    | nil => rw [hl] at hj; simp at hj
    | cons a tl =>
        rw [hl] at hj
        simp only [List.head?_cons, Option.some.injEq] at hj
        have hperm := List.mergeSort_perm
          (st.all_jobs.filter (fun j => ¬ jobExcluded skip_jobs j)) jobLE
        rw [hl] at hperm
        have hjfilt : a ∈ st.all_jobs.filter (fun j => ¬ jobExcluded skip_jobs j) :=
          hperm.subset (List.mem_cons_self a tl)
        have hjall := List.mem_filter.mp hjfilt
        rw [← hj]
        refine ⟨hjall.1, by simpa using hjall.2, ?_⟩
        intro j' hj' hex'
        have hpw := List.sorted_mergeSort jobLE_trans jobLE_total
          (st.all_jobs.filter (fun j => ¬ jobExcluded skip_jobs j))
        rw [hl] at hpw
        have hj'mem : j' ∈ a :: tl :=
          hperm.mem_iff.mpr (List.mem_filter.mpr ⟨hj', by simp [hex']⟩)
        rcases List.mem_cons.mp hj'mem with h' | h'
        · rw [h']
          exact jobLE_refl a
        · exact (List.pairwise_cons.mp hpw).1 j' h'

/-! ### Upload validation (Projects.check_job) -/

/-- Payload of one upload request: the number of bytes `file.save` writes,
the dav1d decode outcome for "aom" artifacts (`none` models dav1d exiting
with returncode 1, otherwise the decoded frame count parsed from its
output), and the ffmpeg frame probe used for every other encoder. -/
structure Upload where
  size : Nat
  dav1dFrames : Option Nat
  probeFrames : Nat
  deriving Repr, DecidableEq

theorem Disk.statSize_write_self (d : Disk) (p : String) (sz : Nat) :
    (d.write p sz).statSize p = some sz := by
  simp [Disk.write, Disk.statSize, dictGet_dictInsert_self]

/-- Frame count the validator extracts from the stored artifact
(src/project.py lines 103-118): dav1d for "aom", `get_frames` otherwise. -/
def decodedFrames (encoder : String) (file : Upload) : Option Nat :=
  if encoder = "aom" then file.dav1dFrames else some file.probeFrames

/-- `Projects.check_job` (src/project.py lines 70-143).  The result is the
returned status string together with the updated registry state and disk;
`none` models the uncaught `KeyError` raised when the scene id is in the
job map but missing from the scene map (the source indexes
`project.scenes[scene_number]` unguarded). -/
def ProjectsState.check_job (st : ProjectsState) (disk : Disk) (now : Nat)
    (projectid client encoder encoder_params ffmpeg_params scene_number : String)
    (file : Upload) : Option (String × ProjectsState × Disk) :=
  match dictGet st.projects projectid with
  | none => some ("project not found", st, disk)
  | some project =>
    match dictGet project.jobs scene_number with
    | none => some ("job not found", st, disk)
    | some job =>
      match dictGet project.scenes scene_number with
      | none => none
      | some scene =>
        if job.encoder_params ≠ encoder_params ∨ job.ffmpeg_params ≠ ffmpeg_params ∨
            job.encoder ≠ encoder then
          let job' := { job with workers := job.workers.erase client }
          let project' := { project with jobs := updKey scene_number (fun _ => job') project.jobs }
          let st' := { st with projects := updKey projectid (fun _ => project') st.projects }
          some ("bad params", st', disk)
        else
          let encoded := joinPath project.path_encode job.encoded_filename
          if scene.filesize > 0 then
            some ("already done", st, disk)
          else
            let disk := (disk.makedirs project.path_encode).write encoded file.size
            match disk.statSize encoded with
            | none => none
            | some sz =>
              if sz = 0 then
                some ("bad upload", st, disk)
              else
                match decodedFrames job.encoder file with
                | none => some ("bad encode", st, disk)
                | some encoded_frames =>
                  if scene.frames ≠ encoded_frames then
                    let disk := disk.removeFile encoded
                    let job' := { job with workers := job.workers.erase client }
                    let project' := { project with
                      jobs := updKey scene_number (fun _ => job') project.jobs }
                    let st' := { st with
                      projects := updKey projectid (fun _ => project') st.projects }
                    some ("frame mismatch", st', disk)
                  else
                    match disk.statSize encoded with
                    | none => none
                    | some sz2 =>
                      let scene' := { scene with filesize := sz2 }
                      let project' := { project with
                        scenes := updKey scene_number (fun _ => scene') project.scenes }
                      let project' :=
                        if job.workers.contains client then
                          { project' with encoded_frames := project'.encoded_frames + scene.frames }
                        else project'
                      let project' := { project' with
                        jobs := removeKey scene_number project'.jobs }
                      let st' := { st with
                        projects := updKey projectid (fun _ => project') st.projects }
                      let st' := st'.hit now scene.frames
                      let st' := st'.save_projects
                      let st' :=
                        if project'.jobs.length = 0 ∧ project'.get_frames = project'.total_frames
                        then st'.add_action (RegistryAction.complete projectid)
                        else st'
                      some ("saved", st', disk)

/-! ### Project start (resume + job creation) -/

/-- `Project.start` (src/project.py lines 231-280).  Returns the Python
return value (`true` exactly when the split directory is absent or empty,
telling `Projects.add` to enqueue a split) together with the updated
project record. -/
def Project.start (p : Project) (d : Disk) : Bool × Project :=
  if ¬ (d.isdir p.path_split ∧ (d.listdir p.path_split).length ≠ 0) then
    (true, p)
  else
    let p := { p with total_jobs := p.scenes.length }
    let p := if d.isdir p.path_encode then p.set_status "getting resume data" else p
    let scenes' : List (String × Scene) := p.scenes.map (fun ssc =>
      let file_ivf := joinPath p.path_encode (Project.get_encoded_filename ssc.1)
      (ssc.1, { ssc.2 with filesize := (d.statSize file_ivf).getD 0 }))
    let p := { p with
      scenes := scenes',
      total_frames := p.total_frames + (scenes'.map (fun s => s.2.frames)).sum }
    if p.stopped then (false, p)
    else
      let p :=
        if p.input_total_frames = p.total_frames then
          let p2 := p.scenes.foldl (fun (acc : Project) (ssc : String × Scene) =>
            if ssc.2.filesize > 0 ∨ ssc.2.bad then acc
            else
              let job := Job.init p.projectid ssc.1 p.encoder
                (joinPath p.path_split ssc.2.segment)
                (Project.get_encoded_filename ssc.1) p.priority
                p.encoder_params p.ffmpeg_params ssc.2.start ssc.2.frames
              { acc with jobs := dictInsert acc.jobs ssc.1 job }) p
          p2.set_status "ready"
        else
          p.set_status "total frame mismatch"
      if d.isfile p.path_out then (false, p.set_status "complete")
      else (false, p.complete)

/-! ### Key-list helper lemmas -/

theorem mem_map_fst_dictInsert {α : Type} (l : List (String × α)) (k a : String) (v : α)
    (h : a ∈ (dictInsert l k v).map Prod.fst) : a ∈ l.map Prod.fst ∨ a = k := by
  induction l with
  | nil => simpa [dictInsert] using h
  | cons hd tl ih =>
      obtain ⟨k', v'⟩ := hd
      by_cases he : k' = k
      · simp only [dictInsert, if_pos he, List.map_cons, List.mem_cons] at h ⊢
        rcases h with h | h
        · exact Or.inr h
        · exact Or.inl (Or.inr h)
      · simp only [dictInsert, if_neg he, List.map_cons, List.mem_cons] at h ⊢
        rcases h with h | h
        · exact Or.inl (Or.inl h)
        · rcases ih h with h2 | h2
          · exact Or.inl (Or.inr h2)
          · exact Or.inr h2

theorem nodupKeys_dictInsert {α : Type} (l : List (String × α)) (k : String) (v : α)
    (h : (l.map Prod.fst).Nodup) : ((dictInsert l k v).map Prod.fst).Nodup := by
  induction l with
  | nil => simp [dictInsert]
  | cons hd tl ih =>
      obtain ⟨k', v'⟩ := hd
      simp only [List.map_cons, List.nodup_cons] at h
      by_cases he : k' = k
      · subst he
        have hred : dictInsert ((k', v') :: tl) k' v = (k', v) :: tl := by
          simp [dictInsert]
        rw [hred]
        simp only [List.map_cons, List.nodup_cons]
        exact h
      · simp only [dictInsert, if_neg he, List.map_cons, List.nodup_cons]
        refine ⟨?_, ih h.2⟩
        intro hmem
        rcases mem_map_fst_dictInsert tl k k' v hmem with h2 | h2
        · exact h.1 h2
        · exact he h2

theorem Disk.files_makedirs (d : Disk) (p : String) : (d.makedirs p).files = d.files := by
  unfold Disk.makedirs
  by_cases h : d.dirs.contains p = true
  · rw [if_pos h]
  · rw [if_neg h]

/-! ### Claim C2: the saved path of check_job -/

/-- Core computation lemma for the success path of `check_job`: under a
known project, a pending job whose parameters match the submitted ones, a
non-empty upload, and an exact decoded frame count, the call returns
`"saved"`, sets the scene's `filesize` to the stored artifact's nonzero
size, deletes the job, appends a telemetry sample, persists the live
state, and appends the project's `complete` action exactly when the job
map has drained and the encoded frame sum reaches `total_frames`. -/
theorem check_job_saved_core (st : ProjectsState) (disk : Disk) (now : Nat)
    (projectid client scene_number : String) (file : Upload)
    (project : Project) (job : Job) (scene : Scene)
    (hp : dictGet st.projects projectid = some project)
    (hj : dictGet project.jobs scene_number = some job)
    (hsc : dictGet project.scenes scene_number = some scene)
    (hnd : (project.jobs.map Prod.fst).Nodup)
    (hfs : scene.filesize = 0)
    (hsz : file.size ≠ 0)
    (hdec : decodedFrames job.encoder file = some scene.frames) :
    ∃ st' disk' project',
      st.check_job disk now projectid client job.encoder job.encoder_params
        job.ffmpeg_params scene_number file = some ("saved", st', disk') ∧
      dictGet st'.projects projectid = some project' ∧
      dictGet project'.scenes scene_number = some { scene with filesize := file.size } ∧
      file.size ≠ 0 ∧
      disk'.statSize (joinPath project.path_encode job.encoded_filename) = some file.size ∧
      dictGet project'.jobs scene_number = none ∧
      st'.telemetry_encodes.getLast? = some (scene.frames, now) ∧
      st'.persistedIndex = st'.projects.map (fun pp => (pp.1, pp.2.serialize)) ∧
      st'.persistedScenes = st'.projects.map (fun pp => (pp.1, pp.2.scenes)) ∧
      st'.action_queue = st.action_queue ++
        (if project'.jobs.length = 0 ∧ project'.get_frames = project'.total_frames
         then [RegistryAction.complete projectid] else []) := by
  classical
  set project2 : Project := { project with
    scenes := updKey scene_number (fun _ => { scene with filesize := file.size }) project.scenes,
    encoded_frames := if job.workers.contains client then project.encoded_frames + scene.frames
      else project.encoded_frames,
    jobs := removeKey scene_number project.jobs } with hproject2
  set stA : ProjectsState :=
    { st with projects := updKey projectid (fun _ => project2) st.projects } with hstA
  set stB : ProjectsState := (stA.hit now scene.frames).save_projects with hstB
  set stC : ProjectsState :=
    (if project2.jobs.length = 0 ∧ project2.get_frames = project2.total_frames
     then stB.add_action (RegistryAction.complete projectid) else stB) with hstC
  set diskF : Disk := (disk.makedirs project.path_encode).write
    (joinPath project.path_encode job.encoded_filename) file.size with hdiskF
  have hmain : st.check_job disk now projectid client job.encoder job.encoder_params
      job.ffmpeg_params scene_number file = some ("saved", stC, diskF) := by
    cases hcont : job.workers.contains client with
    | false =>
        simp only [hstC, hstB, hstA, hproject2, hdiskF]
        simp only [ProjectsState.check_job, hp, hj, hsc, hfs, Disk.statSize_write_self, hdec,
          hcont, ProjectsState.hit, ProjectsState.save_projects, ProjectsState.add_action]
        simp [hsz]
    | true =>
        simp only [hstC, hstB, hstA, hproject2, hdiskF]
        simp only [ProjectsState.check_job, hp, hj, hsc, hfs, Disk.statSize_write_self, hdec,
          hcont, ProjectsState.hit, ProjectsState.save_projects, ProjectsState.add_action]
        simp [hsz]
  refine ⟨stC, diskF, project2, hmain, ?_, ?_, hsz, ?_, ?_, ?_, ?_, ?_, ?_⟩
  · simp only [hstC, hstB, hstA, ProjectsState.hit, ProjectsState.save_projects,
      ProjectsState.add_action, apply_ite ProjectsState.projects, ite_self]
    rw [dictGet_updKey_self, hp]
    rfl
  · simp only [hproject2]
    rw [dictGet_updKey_self, hsc]
    rfl
  · simp only [hdiskF]
    exact Disk.statSize_write_self _ _ _
  · simp only [hproject2]
    exact dictGet_removeKey_self _ _ hnd
  · simp only [hstC, hstB, hstA, ProjectsState.hit, ProjectsState.save_projects,
      ProjectsState.add_action, apply_ite ProjectsState.telemetry_encodes, ite_self]
    simp [List.getLast?_concat]
  · simp only [hstC, hstB, hstA, ProjectsState.hit, ProjectsState.save_projects,
      ProjectsState.add_action, apply_ite ProjectsState.persistedIndex,
      apply_ite ProjectsState.projects, ite_self]
  · simp only [hstC, hstB, hstA, ProjectsState.hit, ProjectsState.save_projects,
      ProjectsState.add_action, apply_ite ProjectsState.persistedScenes,
      apply_ite ProjectsState.projects, ite_self]
  · by_cases hcond : project2.jobs.length = 0 ∧ project2.get_frames = project2.total_frames
    · simp only [hstC, if_pos hcond, hstB, hstA, ProjectsState.hit, ProjectsState.save_projects,
        ProjectsState.add_action]
    · simp only [hstC, if_neg hcond, hstB, hstA, ProjectsState.hit, ProjectsState.save_projects,
        ProjectsState.add_action]
      simp

/-- C2: for every known project and scene with a pending job (job present,
scene not yet completed), matching submitted parameters, a non-empty
uploaded file, and a decoded frame count exactly equal to the scene's
expected frame count, `check_job` returns `"saved"`, sets the scene's
`filesize` to the nonzero size of the stored artifact, removes the scene's
job from the project's job map, records a telemetry sample for the scene's
frame count, persists the project state, and enqueues the project's
`complete` action if and only if the job map is now empty and the encoded
frame sum equals `total_frames`. -/
theorem check_job_saved (st : ProjectsState) (disk : Disk) (now : Nat)
    (projectid client scene_number : String) (file : Upload)
    (project : Project) (job : Job) (scene : Scene)
    (hp : dictGet st.projects projectid = some project)
    (hj : dictGet project.jobs scene_number = some job)
    (hsc : dictGet project.scenes scene_number = some scene)
    (hnd : (project.jobs.map Prod.fst).Nodup)
    (hfs : scene.filesize = 0)
    (hsz : file.size ≠ 0)
    (hdec : decodedFrames job.encoder file = some scene.frames) :
    ∃ st' disk' project',
      st.check_job disk now projectid client job.encoder job.encoder_params
        job.ffmpeg_params scene_number file = some ("saved", st', disk') ∧
      dictGet st'.projects projectid = some project' ∧
      dictGet project'.scenes scene_number = some { scene with filesize := file.size } ∧
      file.size ≠ 0 ∧
      disk'.statSize (joinPath project.path_encode job.encoded_filename) = some file.size ∧
      dictGet project'.jobs scene_number = none ∧
      st'.telemetry_encodes.getLast? = some (scene.frames, now) ∧
      st'.persistedIndex = st'.projects.map (fun pp => (pp.1, pp.2.serialize)) ∧
      st'.persistedScenes = st'.projects.map (fun pp => (pp.1, pp.2.scenes)) ∧
      st'.action_queue = st.action_queue ++
        (if project'.jobs.length = 0 ∧ project'.get_frames = project'.total_frames
         then [RegistryAction.complete projectid] else []) :=
  check_job_saved_core st disk now projectid client scene_number file project job scene
    hp hj hsc hnd hfs hsz hdec

/-! ### Concrete sample states -/

/-- Sample pending scene (5 frames, not yet encoded). -/
def sampleScene : Scene := { start := 0, frames := 5, segment := "s.mkv", filesize := 0 }

/-- Sample pending job for scene "s1" of project "p", with one advisory
worker claim. -/
def sampleJob : Job :=
  { Job.init "p" "s1" "aom" "split/p/s.mkv" "s1.ivf" 0 "--cpu-used=4" "" 0 5 with
    workers := ["w"] }

/-- Sample project "p" with a single pending scene. -/
def sampleProject : Project :=
  { Project.init "in.mkv" "out/p.mkv" "split/p" "encode/p" "aom" "--cpu-used=4" with
    jobs := [("s1", sampleJob)],
    scenes := [("s1", sampleScene)],
    total_frames := 5,
    input_total_frames := 5 }

/-- Sample registry holding the one project. -/
def sampleState : ProjectsState := { projects := [("p", sampleProject)] }

/-- Empty sample disk. -/
def sampleDisk : Disk := {}

/-- Sample valid upload: 100 bytes, decoding to exactly 5 frames. -/
def sampleUpload : Upload := { size := 100, dav1dFrames := some 5, probeFrames := 5 }

/-- Witness for `check_job_saved` at the concrete one-scene project. -/
theorem check_job_saved_witness :
    dictGet sampleState.projects "p" = some sampleProject ∧
    sampleScene.filesize = 0 ∧
    (∃ st' disk' project',
      sampleState.check_job sampleDisk 7 "p" "w" sampleJob.encoder sampleJob.encoder_params
        sampleJob.ffmpeg_params "s1" sampleUpload = some ("saved", st', disk') ∧
      dictGet st'.projects "p" = some project' ∧
      dictGet project'.scenes "s1" = some { sampleScene with filesize := sampleUpload.size } ∧
      sampleUpload.size ≠ 0 ∧
      disk'.statSize (joinPath sampleProject.path_encode sampleJob.encoded_filename)
        = some sampleUpload.size ∧
      dictGet project'.jobs "s1" = none ∧
      st'.telemetry_encodes.getLast? = some (sampleScene.frames, 7) ∧
      st'.persistedIndex = st'.projects.map (fun pp => (pp.1, pp.2.serialize)) ∧
      st'.persistedScenes = st'.projects.map (fun pp => (pp.1, pp.2.scenes)) ∧
      st'.action_queue = sampleState.action_queue ++
        (if project'.jobs.length = 0 ∧ project'.get_frames = project'.total_frames
         then [RegistryAction.complete "p"] else [])) :=
  ⟨by decide, by decide,
    check_job_saved sampleState sampleDisk 7 "p" "w" "s1" sampleUpload
      sampleProject sampleJob sampleScene (by decide) (by decide) (by decide)
      (by decide) (by decide) (by decide) (by decide)⟩

/-! ### Claim C4: the frame-mismatch path of check_job -/

/-- C4: an upload whose decoded frame count differs from the scene's
expected frame count makes `check_job` delete the stored artifact, drop
the submitting client from the job's worker list (first occurrence, when
present), and return `"frame mismatch"`, leaving the scene record (still
`filesize = 0`) and the scene's job entry in place, so the scene remains
assignable. -/
theorem check_job_frame_mismatch (st : ProjectsState) (disk : Disk) (now : Nat)
    (projectid client scene_number : String) (file : Upload) (ef : Nat)
    (project : Project) (job : Job) (scene : Scene)
    (hp : dictGet st.projects projectid = some project)
    (hj : dictGet project.jobs scene_number = some job)
    (hsc : dictGet project.scenes scene_number = some scene)
    (hdnd : (disk.files.map Prod.fst).Nodup)
    (hfs : scene.filesize = 0)
    (hsz : file.size ≠ 0)
    (hdec : decodedFrames job.encoder file = some ef)
    (hne : scene.frames ≠ ef) :
    ∃ st' disk' project' job',
      st.check_job disk now projectid client job.encoder job.encoder_params
        job.ffmpeg_params scene_number file = some ("frame mismatch", st', disk') ∧
      disk'.statSize (joinPath project.path_encode job.encoded_filename) = none ∧
      dictGet st'.projects projectid = some project' ∧
      dictGet project'.jobs scene_number = some job' ∧
      job'.workers = job.workers.erase client ∧
      dictGet project'.scenes scene_number = some scene ∧
      scene.filesize = 0 := by
  classical
  set job2 : Job := { job with workers := job.workers.erase client } with hjob2
  set project2 : Project :=
    { project with jobs := updKey scene_number (fun _ => job2) project.jobs } with hproject2
  set st2 : ProjectsState :=
    { st with projects := updKey projectid (fun _ => project2) st.projects } with hst2
  set disk2 : Disk := ((disk.makedirs project.path_encode).write
    (joinPath project.path_encode job.encoded_filename) file.size).removeFile
    (joinPath project.path_encode job.encoded_filename) with hdisk2
  have hmain : st.check_job disk now projectid client job.encoder job.encoder_params
      job.ffmpeg_params scene_number file = some ("frame mismatch", st2, disk2) := by
    simp only [hst2, hproject2, hjob2, hdisk2]
    simp only [ProjectsState.check_job, hp, hj, hsc, hfs, Disk.statSize_write_self, hdec]
    simp [hsz, hne]
  refine ⟨st2, disk2, project2, job2, hmain, ?_, ?_, ?_, ?_, ?_, hfs⟩
  · simp only [hdisk2, Disk.removeFile, Disk.statSize, Disk.write]
    apply dictGet_removeKey_self
    have hmk : ((disk.makedirs project.path_encode).files.map Prod.fst).Nodup := by
      rw [Disk.files_makedirs]
      exact hdnd
    exact nodupKeys_dictInsert _ _ _ hmk
  · simp only [hst2]
    rw [dictGet_updKey_self, hp]
    rfl
  · simp only [hproject2]
    rw [dictGet_updKey_self, hj]
    rfl
  · rw [hjob2]
  · simp only [hproject2]
    exact hsc

/-- Sample upload decoding to 4 frames instead of 5. -/
def mismatchUpload : Upload := { size := 80, dav1dFrames := some 4, probeFrames := 4 }

/-- Witness for `check_job_frame_mismatch` at the concrete project. -/
theorem check_job_frame_mismatch_witness :
    sampleScene.frames ≠ 4 ∧
    (∃ st' disk' project' job',
      sampleState.check_job sampleDisk 7 "p" "w" sampleJob.encoder sampleJob.encoder_params
        sampleJob.ffmpeg_params "s1" mismatchUpload = some ("frame mismatch", st', disk') ∧
      disk'.statSize (joinPath sampleProject.path_encode sampleJob.encoded_filename) = none ∧
      dictGet st'.projects "p" = some project' ∧
      dictGet project'.jobs "s1" = some job' ∧
      job'.workers = sampleJob.workers.erase "w" ∧
      dictGet project'.scenes "s1" = some sampleScene ∧
      sampleScene.filesize = 0) :=
  ⟨by decide,
    check_job_frame_mismatch sampleState sampleDisk 7 "p" "w" "s1" mismatchUpload 4
      sampleProject sampleJob sampleScene (by decide) (by decide) (by decide)
      (by decide) (by decide) (by decide) (by decide) (by decide)⟩

/-! ### Claim C10: the bad-upload path of check_job -/

/-- C10: when `check_job` rejects an upload as `"bad upload"` (empty
file), the zero-byte file has already been written to the scene's
expected encoded path and is not deleted before returning; the registry
state is returned completely unchanged, so the submitting client stays in
the job's worker list, the scene's `filesize` stays 0, and the scene's
job remains in the job map. -/
theorem check_job_bad_upload (st : ProjectsState) (disk : Disk) (now : Nat)
    (projectid client scene_number : String) (file : Upload)
    (project : Project) (job : Job) (scene : Scene)
    (hp : dictGet st.projects projectid = some project)
    (hj : dictGet project.jobs scene_number = some job)
    (hsc : dictGet project.scenes scene_number = some scene)
    (hfs : scene.filesize = 0)
    (hsz0 : file.size = 0) :
    ∃ disk',
      st.check_job disk now projectid client job.encoder job.encoder_params
        job.ffmpeg_params scene_number file = some ("bad upload", st, disk') ∧
      disk'.statSize (joinPath project.path_encode job.encoded_filename) = some 0 ∧
      dictGet project.jobs scene_number = some job ∧
      scene.filesize = 0 := by
  refine ⟨(disk.makedirs project.path_encode).write
    (joinPath project.path_encode job.encoded_filename) file.size, ?_, ?_, hj, hfs⟩
  · simp only [ProjectsState.check_job, hp, hj, hsc, hfs, Disk.statSize_write_self, hsz0]
    simp
  · rw [hsz0]
    exact Disk.statSize_write_self _ _ _

/-- Empty sample upload. -/
def emptyUpload : Upload := { size := 0, dav1dFrames := some 0, probeFrames := 0 }

/-- Witness for `check_job_bad_upload` at the concrete project. -/
theorem check_job_bad_upload_witness :
    emptyUpload.size = 0 ∧
    (∃ disk',
      sampleState.check_job sampleDisk 7 "p" "w" sampleJob.encoder sampleJob.encoder_params
        sampleJob.ffmpeg_params "s1" emptyUpload = some ("bad upload", sampleState, disk') ∧
      disk'.statSize (joinPath sampleProject.path_encode sampleJob.encoded_filename) = some 0 ∧
      dictGet sampleProject.jobs "s1" = some sampleJob ∧
      sampleScene.filesize = 0) :=
  ⟨by decide,
    check_job_bad_upload sampleState sampleDisk 7 "p" "w" "s1" emptyUpload
      sampleProject sampleJob sampleScene (by decide) (by decide) (by decide)
      (by decide) (by decide)⟩

/-! ### Claim C5: duplicate submission -/

/-- Counterexample to C5 as stated: submitting the same valid artifact
twice yields `"saved"` and then `"job not found"`, not `"already done"`,
because the successful first call deletes the scene's job entry and the
job-map lookup precedes the filesize check. -/
theorem check_job_idempotent_counterexample :
    ((sampleState.check_job sampleDisk 7 "p" "w" "aom" "--cpu-used=4" "" "s1" sampleUpload).bind
      (fun r => r.2.1.check_job r.2.2 7 "p" "w" "aom" "--cpu-used=4" "" "s1" sampleUpload)).map
        Prod.fst = some "job not found" ∧
    (sampleState.check_job sampleDisk 7 "p" "w" "aom" "--cpu-used=4" "" "s1" sampleUpload).map
      Prod.fst = some "saved" ∧
    some "job not found" ≠ some "already done" := by
  refine ⟨by decide, by decide, by decide⟩

/-- C5 amended: whenever a scene's `filesize` is already nonzero while its
job is still present with matching parameters, `check_job` returns
`"already done"` leaving the registry state and the disk untouched; a
duplicate submission of a valid artifact after a successful `"saved"`,
however, is answered with `"job not found"` (the job having been
removed), not `"already done"`, and likewise leaves state and disk
untouched. -/
theorem check_job_duplicate (st : ProjectsState) (disk : Disk) (now : Nat)
    (projectid client scene_number : String) (file : Upload)
    (project : Project) (job : Job) (scene : Scene)
    (hp : dictGet st.projects projectid = some project)
    (hj : dictGet project.jobs scene_number = some job)
    (hsc : dictGet project.scenes scene_number = some scene) :
    (scene.filesize > 0 →
      st.check_job disk now projectid client job.encoder job.encoder_params
        job.ffmpeg_params scene_number file = some ("already done", st, disk)) ∧
    (scene.filesize = 0 → file.size ≠ 0 → (project.jobs.map Prod.fst).Nodup →
      decodedFrames job.encoder file = some scene.frames →
      ∃ st' disk',
        st.check_job disk now projectid client job.encoder job.encoder_params
          job.ffmpeg_params scene_number file = some ("saved", st', disk') ∧
        st'.check_job disk' now projectid client job.encoder job.encoder_params
          job.ffmpeg_params scene_number file = some ("job not found", st', disk')) := by
  constructor
  · intro hpos
    simp only [ProjectsState.check_job, hp, hj, hsc]
    simp [hpos]
  · intro hfs hsz hnd hdec
    obtain ⟨st', disk', project', heq, hp', _, _, _, hjob', _, _, _, _⟩ :=
      check_job_saved_core st disk now projectid client scene_number file project job scene
        hp hj hsc hnd hfs hsz hdec
    refine ⟨st', disk', heq, ?_⟩
    simp only [ProjectsState.check_job, hp', hjob']

/-- Sample scene already encoded (nonzero filesize) while its job is still
present: the configuration that reaches the "already done" branch. -/
def doneScene : Scene := { start := 0, frames := 5, segment := "s.mkv", filesize := 90 }

/-- Sample project holding the already-encoded scene with a live job. -/
def doneProject : Project :=
  { sampleProject with scenes := [("s1", doneScene)] }

/-- Registry for the already-done configuration. -/
def doneState : ProjectsState := { projects := [("p", doneProject)] }

/-- Witness for `check_job_duplicate` at the already-done configuration. -/
theorem check_job_duplicate_witness :
    dictGet doneState.projects "p" = some doneProject ∧
    doneScene.filesize > 0 ∧
    ((doneScene.filesize > 0 →
      doneState.check_job sampleDisk 7 "p" "w" sampleJob.encoder sampleJob.encoder_params
        sampleJob.ffmpeg_params "s1" sampleUpload = some ("already done", doneState, sampleDisk)) ∧
    (doneScene.filesize = 0 → sampleUpload.size ≠ 0 →
      (doneProject.jobs.map Prod.fst).Nodup →
      decodedFrames sampleJob.encoder sampleUpload = some doneScene.frames →
      ∃ st' disk',
        doneState.check_job sampleDisk 7 "p" "w" sampleJob.encoder sampleJob.encoder_params
          sampleJob.ffmpeg_params "s1" sampleUpload = some ("saved", st', disk') ∧
        st'.check_job disk' 7 "p" "w" sampleJob.encoder sampleJob.encoder_params
          sampleJob.ffmpeg_params "s1" sampleUpload = some ("job not found", st', disk'))) :=
  ⟨by decide, by decide,
    check_job_duplicate doneState sampleDisk 7 "p" "w" "s1" sampleUpload
      doneProject sampleJob doneScene (by decide) (by decide) (by decide)⟩

/-! ### Properties of Project.complete -/

theorem Project.completeStatus (p : Project) :
    (p.complete).status = "complete" ↔
      (p.jobs = [] ∧ p.get_frames = p.total_frames) ∨ p.status = "complete" := by
  unfold Project.complete
  split_ifs with h
  · simp [Project.set_status, Project.concat, List.length_eq_zero.mp h.1, h.2]
  · rw [List.length_eq_zero] at h
    simp [h]

theorem Project.complete_jobs (p : Project) : (p.complete).jobs = p.jobs := by
  unfold Project.complete
  split_ifs with h
  · simp [Project.set_status, Project.concat]
  · rfl

theorem Project.complete_scenes (p : Project) : (p.complete).scenes = p.scenes := by
  unfold Project.complete
  split_ifs with h
  · simp [Project.set_status, Project.concat]
  · rfl

theorem Project.complete_total_frames (p : Project) :
    (p.complete).total_frames = p.total_frames := by
  unfold Project.complete
  split_ifs with h
  · simp [Project.set_status, Project.concat]
  · rfl

theorem Project.complete_get_frames (p : Project) :
    (p.complete).get_frames = p.get_frames := by
  unfold Project.get_frames
  rw [Project.complete_scenes]

theorem Project.complete_status_cases (p : Project) :
    (p.complete).status = "complete" ∨ (p.complete).status = p.status := by
  unfold Project.complete
  split_ifs with h
  · exact Or.inl (by simp [Project.set_status, Project.concat])
  · exact Or.inr rfl

/-! ### Claim C3: completion invariant -/

/-- Freshly constructed project, exactly as `Project.__init__` leaves it. -/
def freshProject : Project :=
  Project.init "in.mkv" "out/p.mkv" "split/p" "encode/p" "aom" "--cpu-used=4"

/-- Counterexample to C3 as stated: a freshly constructed project has an
empty scene map, so the encoded frame sum (0) trivially equals
`total_frames` (0), yet its status is "starting", not "complete"; the
biconditional therefore fails on it. -/
theorem complete_invariant_counterexample :
    ¬ (freshProject.get_frames = freshProject.total_frames ↔
        freshProject.status = "complete") := by
  decide

/-- C3 amended: the equivalence holds at the point `Project.complete`
runs, not as a state invariant: after invoking `complete`, the status is
`"complete"` if and only if the job map is empty and the encoded frame
sum equals `total_frames`, or the status was already `"complete"`; in
arbitrary intermediate states (for example a freshly constructed project)
the as-stated biconditional fails. -/
theorem complete_status_iff (p : Project) :
    (p.complete).status = "complete" ↔
      (p.jobs = [] ∧ p.get_frames = p.total_frames) ∨ p.status = "complete" :=
  Project.completeStatus p

/-! ### Claim C7: total frame mismatch -/

theorem start_fold_scenes (l : List (String × Scene)) (acc : Project)
    (mk : (String × Scene) → Job) :
    (l.foldl (fun acc2 ssc => if ssc.2.filesize > 0 ∨ ssc.2.bad then acc2
      else { acc2 with jobs := dictInsert acc2.jobs ssc.1 (mk ssc) }) acc).scenes
      = acc.scenes := by
  induction l generalizing acc with
  | nil => rfl
  | cons hd tl ih =>
      simp only [List.foldl_cons]
      by_cases h : hd.2.filesize > 0 ∨ hd.2.bad
      · rw [if_pos h]
        exact ih acc
      · rw [if_neg h]
        exact ih _

theorem status_cases_of (p4 : Project) (hs : p4.status = "total frame mismatch") :
    (p4.complete).status = "total frame mismatch" ∨ (p4.complete).status = "complete" := by
  rcases Project.complete_status_cases p4 with h | h
  · exact Or.inr h
  · rw [h, hs]
    exact Or.inl rfl

/-- C7 amended: when `inputTotalFrames` differs from the accumulated
`totalFrames`, `Project.start` creates no jobs (the job map is left
exactly as it was) and sets the status to `"total frame mismatch"`, but
that status is not terminal within `start` itself: the final lines of
`start` overwrite it with `"complete"` exactly when the output file
already exists on disk, or when the job map is empty and the resumed
encoded frame sum already equals the accumulated `totalFrames` (in which
case `complete()` runs); otherwise the status stays
`"total frame mismatch"`. -/
theorem start_total_frame_mismatch (p : Project) (d : Disk)
    (hready : d.isdir p.path_split = true ∧ (d.listdir p.path_split).length ≠ 0)
    (hstop : p.stopped = false)
    (hmm : p.input_total_frames ≠
      p.total_frames + (p.scenes.map (fun ssc => ssc.2.frames)).sum) :
    (p.start d).2.jobs = p.jobs ∧
    ((p.start d).2.status = "total frame mismatch" ∨ (p.start d).2.status = "complete") ∧
    ((p.start d).2.status = "complete" ↔
      d.isfile p.path_out = true ∨
      (p.jobs = [] ∧ (p.start d).2.get_frames = (p.start d).2.total_frames)) := by
  have hnot : ¬ ¬ (d.isdir p.path_split = true ∧ (d.listdir p.path_split).length ≠ 0) :=
    not_not_intro hready
  by_cases henc : d.isdir p.path_encode = true <;>
    by_cases hout : d.isfile p.path_out = true
  all_goals refine ⟨?_, ?_, ?_⟩
  all_goals simp only [Project.start, if_neg hnot, List.map_map, Function.comp_def]
  all_goals simp [henc, hout, hstop, hmm, Project.set_status, Project.complete_jobs]
  · exact status_cases_of _ rfl
  · rw [Project.completeStatus, Project.complete_get_frames, Project.complete_total_frames]
    simp
  · exact status_cases_of _ rfl
  · rw [Project.completeStatus, Project.complete_get_frames, Project.complete_total_frames]
    simp

/-- Pending scene for the C7 counterexample project. -/
def cex7Scene : Scene := { start := 0, frames := 5, segment := "s.mkv", filesize := 0 }

/-- Resumable project whose recorded `input_frames` (99) cannot match the
5 frames its scenes accumulate. -/
def cex7Project : Project :=
  { Project.init "in.mkv" "out/p.mkv" "split/p" "encode/p" "aom" "--cpu-used=4" with
    scenes := [("s1", cex7Scene)], input_total_frames := 99 }

/-- Disk for the C7 counterexample: the split directory holds the segment
and, crucially, the final output file already exists. -/
def cex7Disk : Disk :=
  { files := [("split/p/s.mkv", 10), ("out/p.mkv", 50)], dirs := ["split/p"] }

/-- Counterexample to C7 as stated: on a project whose
`input_total_frames` (99) differs from the accumulated total (5),
`Project.start` does set `"total frame mismatch"`, but when the output
file already exists the very next line of `start` overwrites the status
with `"complete"`, so the project does not remain in the terminal
mismatch status. -/
theorem start_total_frame_mismatch_counterexample :
    cex7Project.input_total_frames ≠ (cex7Project.start cex7Disk).2.total_frames ∧
    (cex7Project.start cex7Disk).2.jobs = [] ∧
    (cex7Project.start cex7Disk).2.status = "complete" ∧
    (cex7Project.start cex7Disk).2.status ≠ "total frame mismatch" := by
  decide

/-- Witness for `start_total_frame_mismatch` at the concrete project. -/
theorem start_total_frame_mismatch_witness :
    cex7Project.stopped = false ∧
    ((cex7Project.start cex7Disk).2.jobs = cex7Project.jobs ∧
    ((cex7Project.start cex7Disk).2.status = "total frame mismatch" ∨
      (cex7Project.start cex7Disk).2.status = "complete") ∧
    ((cex7Project.start cex7Disk).2.status = "complete" ↔
      cex7Disk.isfile cex7Project.path_out = true ∨
      (cex7Project.jobs = [] ∧ (cex7Project.start cex7Disk).2.get_frames
        = (cex7Project.start cex7Disk).2.total_frames))) :=
  ⟨by decide,
    start_total_frame_mismatch cex7Project cex7Disk ⟨by decide, by decide⟩
      (by decide) (by decide)⟩

/-! ### Claim C6: filesize monotonicity -/


theorem dictGet_updKey_ne {α : Type} (l : List (String × α)) (k k' : String) (f : α → α)
    (h : k' ≠ k) : dictGet (updKey k f l) k' = dictGet l k' := by
  induction l with
  | nil => rfl
  | cons hd tl ih =>
      obtain ⟨k2, v2⟩ := hd
      by_cases h2 : k2 = k
      · subst h2
        simp only [updKey, if_pos rfl, dictGet]
        rw [if_neg (fun he => h he.symm), if_neg (fun he => h he.symm)]
      · simp only [updKey, if_neg h2, dictGet]
        by_cases h3 : k2 = k'
        · rw [if_pos h3, if_pos h3]
        · rw [if_neg h3, if_neg h3]
          exact ih

/-- Shape of the registry state `check_job` returns: either the project
map is untouched, or exactly the addressed project was replaced, and its
scene map is either untouched or has exactly the addressed scene's
`filesize` set from 0 to the nonzero uploaded size. -/
theorem check_job_projects_shape (st : ProjectsState) (disk : Disk) (now : Nat)
    (projectid client encoder encoder_params ffmpeg_params scene_number : String)
    (file : Upload) (r : String) (st' : ProjectsState) (disk' : Disk)
    (heq : st.check_job disk now projectid client encoder encoder_params ffmpeg_params
      scene_number file = some (r, st', disk')) :
    st'.projects = st.projects ∨
    ∃ project PR, dictGet st.projects projectid = some project ∧
      st'.projects = updKey projectid (fun _ => PR) st.projects ∧
      (PR.scenes = project.scenes ∨
        ∃ scene, dictGet project.scenes scene_number = some scene ∧
          scene.filesize = 0 ∧ file.size ≠ 0 ∧
          PR.scenes = updKey scene_number
            (fun _ => { scene with filesize := file.size }) project.scenes) := by
  simp only [ProjectsState.check_job] at heq
  cases hpp : dictGet st.projects projectid with
  | none =>
      simp only [hpp, Option.some.injEq, Prod.mk.injEq] at heq
      exact Or.inl (by rw [← heq.2.1])
  | some project =>
      simp only [hpp] at heq
      cases hjj : dictGet project.jobs scene_number with
      | none =>
          simp only [hjj, Option.some.injEq, Prod.mk.injEq] at heq
          exact Or.inl (by rw [← heq.2.1])
      | some job =>
          simp only [hjj] at heq
          cases hss : dictGet project.scenes scene_number with
          | none =>
              simp only [hss] at heq
              exact Option.noConfusion heq
          | some scene =>
              simp only [hss] at heq
              by_cases hpar : job.encoder_params ≠ encoder_params ∨
                  job.ffmpeg_params ≠ ffmpeg_params ∨ job.encoder ≠ encoder
              · rw [if_pos hpar] at heq
                simp only [Option.some.injEq, Prod.mk.injEq] at heq
                refine Or.inr ⟨project,
                  { project with jobs := (updKey scene_number
                      (fun _ => { job with workers := job.workers.erase client })
                      project.jobs) },
                  rfl, ?_, Or.inl rfl⟩
                rw [← heq.2.1]
              · rw [if_neg hpar] at heq
                by_cases hfs : scene.filesize > 0
                · rw [if_pos hfs] at heq
                  simp only [Option.some.injEq, Prod.mk.injEq] at heq
                  exact Or.inl (by rw [← heq.2.1])
                · rw [if_neg hfs] at heq
                  simp only [Disk.statSize_write_self] at heq
                  by_cases hsz : file.size = 0
                  · rw [if_pos hsz] at heq
                    simp only [Option.some.injEq, Prod.mk.injEq] at heq
                    exact Or.inl (by rw [← heq.2.1])
                  · rw [if_neg hsz] at heq
                    cases hdec : decodedFrames job.encoder file with
                    | none =>
                        simp only [hdec, Option.some.injEq, Prod.mk.injEq] at heq
                        exact Or.inl (by rw [← heq.2.1])
                    | some ef =>
                        simp only [hdec] at heq
                        by_cases hfr : scene.frames ≠ ef
                        · rw [if_pos hfr] at heq
                          simp only [Option.some.injEq, Prod.mk.injEq] at heq
                          refine Or.inr ⟨project,
                            { project with jobs := (updKey scene_number
                                (fun _ => { job with workers := job.workers.erase client })
                                project.jobs) },
                            rfl, ?_, Or.inl rfl⟩
                          rw [← heq.2.1]
                        · rw [if_neg hfr] at heq
                          cases hcont : job.workers.contains client with
                          | false =>
                              simp only [hcont, ProjectsState.hit, ProjectsState.save_projects,
                                ProjectsState.add_action, Option.some.injEq, Prod.mk.injEq,
                                Bool.false_eq_true, if_false] at heq
                              refine Or.inr ⟨project,
                                { project with
                                  scenes := (updKey scene_number
                                    (fun _ => { scene with filesize := file.size }) project.scenes),
                                  jobs := removeKey scene_number project.jobs },
                                rfl, ?_,
                                Or.inr ⟨scene, hss, Nat.eq_zero_of_not_pos hfs, hsz, rfl⟩⟩
                              rw [← heq.2.1]
                              split <;> rfl
                          | true =>
                              simp only [hcont, ProjectsState.hit, ProjectsState.save_projects,
                                ProjectsState.add_action, Option.some.injEq, Prod.mk.injEq,
                                if_true] at heq
                              refine Or.inr ⟨project,
                                { project with
                                  scenes := (updKey scene_number
                                    (fun _ => { scene with filesize := file.size }) project.scenes),
                                  encoded_frames := project.encoded_frames + scene.frames,
                                  jobs := removeKey scene_number project.jobs },
                                rfl, ?_,
                                Or.inr ⟨scene, hss, Nat.eq_zero_of_not_pos hfs, hsz, rfl⟩⟩
                              rw [← heq.2.1]
                              split <;> rfl

theorem start_fold_path_out (l : List (String × Scene)) (acc : Project)
    (mk : (String × Scene) → Job) :
    (l.foldl (fun acc2 ssc => if ssc.2.filesize > 0 ∨ ssc.2.bad then acc2
      else { acc2 with jobs := dictInsert acc2.jobs ssc.1 (mk ssc) }) acc).path_out
      = acc.path_out := by
  induction l generalizing acc with
  | nil => rfl
  | cons hd tl ih =>
      simp only [List.foldl_cons]
      by_cases h : hd.2.filesize > 0 ∨ hd.2.bad
      · rw [if_pos h]
        exact ih acc
      · rw [if_neg h]
        exact ih _

theorem start_scenes_filesize (p : Project) (d : Disk)
    (hdir : d.isdir p.path_split = true)
    (hnonempty : (d.listdir p.path_split).length ≠ 0) :
    (p.start d).2.scenes = p.scenes.map (fun ssc =>
      (ssc.1, { ssc.2 with filesize :=
        (d.statSize (joinPath p.path_encode (Project.get_encoded_filename ssc.1))).getD 0 })) := by
  have hnot : ¬ ¬ (d.isdir p.path_split = true ∧ (d.listdir p.path_split).length ≠ 0) :=
    not_not_intro ⟨hdir, hnonempty⟩
  by_cases henc : d.isdir p.path_encode = true <;>
    by_cases hout : d.isfile p.path_out = true <;>
    by_cases hstop : p.stopped = true <;>
    by_cases hmm2 : p.input_total_frames =
      p.total_frames + (p.scenes.map (fun ssc => ssc.2.frames)).sum
  all_goals simp only [Project.start, if_neg hnot, List.map_map, Function.comp_def]
  all_goals simp [henc, hout, hstop, hmm2, Project.set_status, Project.complete_scenes,
    start_fold_scenes, start_fold_path_out]

/-- C6 amended: within `check_job` a scene's `filesize` is indeed
monotonic, changing at most once from 0 to a nonzero value (every
rejection path leaves every scene record unchanged); `Project.start`,
however, recomputes every scene's `filesize` from the on-disk artifact,
resetting it to 0 whenever the artifact file is absent, regardless of the
persisted value; the frame-mismatch invalidation deletes the artifact
file but never touches the `filesize` field (which is already 0 on that
path). -/
theorem filesize_update_rules :
    (∀ (p : Project) (d : Disk),
      d.isdir p.path_split = true → (d.listdir p.path_split).length ≠ 0 →
      (p.start d).2.scenes = p.scenes.map (fun ssc =>
        (ssc.1, { ssc.2 with filesize :=
          (d.statSize (joinPath p.path_encode (Project.get_encoded_filename ssc.1))).getD 0 }))) ∧
    (∀ (st : ProjectsState) (disk : Disk) (now : Nat)
      (projectid client encoder encoder_params ffmpeg_params scene_number : String)
      (file : Upload) (r : String) (st' : ProjectsState) (disk' : Disk),
      st.check_job disk now projectid client encoder encoder_params ffmpeg_params
        scene_number file = some (r, st', disk') →
      ∀ pid2 p2 p2' sn2 sc sc',
        dictGet st.projects pid2 = some p2 →
        dictGet st'.projects pid2 = some p2' →
        dictGet p2.scenes sn2 = some sc →
        dictGet p2'.scenes sn2 = some sc' →
        sc' = sc ∨ (sc.filesize = 0 ∧ sc'.filesize ≠ 0)) := by
  constructor
  · intro p d hdir hne
    exact start_scenes_filesize p d hdir hne
  · intro st disk now projectid client encoder eps fps sn file r st' disk' heq
    intro pid2 p2 p2' sn2 sc sc' h1 h2 h3 h4
    rcases check_job_projects_shape st disk now projectid client encoder eps fps sn file
        r st' disk' heq with hsame | ⟨project, PR, hpp, hupd, hsc⟩
    · rw [hsame, h1] at h2
      obtain rfl := Option.some.inj h2
      rw [h3] at h4
      exact Or.inl (Option.some.inj h4).symm
    · by_cases hpid : pid2 = projectid
      · subst hpid
        rw [hupd, dictGet_updKey_self, hpp] at h2
        simp only [Option.map_some'] at h2
        obtain rfl := Option.some.inj h2
        rw [h1] at hpp
        obtain rfl := Option.some.inj hpp
        rcases hsc with hsame2 | ⟨scene, hscene, hfs0, hszne, hupd2⟩
        · rw [hsame2, h3] at h4
          exact Or.inl (Option.some.inj h4).symm
        · by_cases hsn : sn2 = sn
          · subst hsn
            rw [hupd2, dictGet_updKey_self, hscene] at h4
            simp only [Option.map_some'] at h4
            rw [hscene] at h3
            obtain rfl := Option.some.inj h3
            obtain rfl := Option.some.inj h4
            exact Or.inr ⟨hfs0, hszne⟩
          · rw [hupd2, dictGet_updKey_ne _ _ _ _ hsn, h3] at h4
            exact Or.inl (Option.some.inj h4).symm
      · rw [hupd, dictGet_updKey_ne _ _ _ _ hpid, h1] at h2
        obtain rfl := Option.some.inj h2
        rw [h3] at h4
        exact Or.inl (Option.some.inj h4).symm

/-- Scene persisted with a nonzero `filesize` (5 bytes). -/
def resumeScene : Scene := { start := 0, frames := 5, segment := "s.mkv", filesize := 5 }

/-- Project resuming from persisted state that claims scene "s1" is done. -/
def resumeProject : Project :=
  { Project.init "in.mkv" "out/p.mkv" "split/p" "encode/p" "aom" "--cpu-used=4" with
    scenes := [("s1", resumeScene)], input_total_frames := 5 }

/-- Disk containing the split segment but not the encoded artifact. -/
def resumeDisk : Disk := { files := [("split/p/s.mkv", 10)], dirs := ["split/p"] }

/-- Counterexample to C6 as stated: a scene whose persisted `filesize` is
nonzero (5) is reset to 0 by `Project.start` when the on-disk artifact is
missing, an operation that is not the frame-mismatch invalidation. -/
theorem filesize_monotonic_counterexample :
    (dictGet resumeProject.scenes "s1").map Scene.filesize = some 5 ∧
    (dictGet (resumeProject.start resumeDisk).2.scenes "s1").map Scene.filesize = some 0 := by
  decide

/-- Witness for `filesize_update_rules` at concrete inputs: the start
clause at the resume project whose artifact is missing, and the check_job
clause at an "already done" call that leaves the scene untouched. -/
theorem filesize_update_rules_witness :
    resumeDisk.isdir resumeProject.path_split = true ∧
    ((resumeProject.start resumeDisk).2.scenes = resumeProject.scenes.map (fun ssc =>
      (ssc.1, { ssc.2 with filesize := (resumeDisk.statSize
        (joinPath resumeProject.path_encode (Project.get_encoded_filename ssc.1))).getD 0 }))) ∧
    (doneScene = doneScene ∨ (doneScene.filesize = 0 ∧ doneScene.filesize ≠ 0)) :=
  ⟨by decide,
    filesize_update_rules.1 resumeProject resumeDisk (by decide) (by decide),
    filesize_update_rules.2 doneState sampleDisk 7 "p" "w" sampleJob.encoder
      sampleJob.encoder_params sampleJob.ffmpeg_params "s1" sampleUpload
      "already done" doneState sampleDisk (by decide) "p" doneProject doneProject
      "s1" doneScene doneScene (by decide) (by decide) (by decide) (by decide)⟩

/-! ### Claim C8: the upload queue retry loop (src/client.py) -/

/-- Retry loop of `Client._upload_loop` (src/client.py lines 245-268) for
one dequeued item, driven by the responses the successive `upload` calls
produce: `none` models a connection failure (`upload` returned a falsy
value), `some t` a server response with body text `t`.  `uploads` is the
remaining bad-upload retry budget (3 at entry).  The result is
`some (success, rest)` when the loop breaks (with the unconsumed
responses), `none` when the given responses are exhausted while the loop
is still retrying. -/
def uploadLoop (uploads : Nat) : List (Option String) → Option (Bool × List (Option String))
  | [] => none
  | r :: rest =>
    match r with
    | some t =>
      if t = "saved" then some (true, rest)
      else if t = "bad upload" ∧ uploads > 0 then uploadLoop (uploads - 1) rest
      else some (false, rest)
    | none => uploadLoop uploads rest

/-- The success/failure counters of the `Client`. -/
structure ClientCounters where
  completed : Nat
  failed : Nat
  deriving Repr, DecidableEq

/-- Processing of one dequeued `(job, output)` item by `_upload_loop`
(src/client.py lines 242-277): run the retry loop with budget 3, update
the matching counter on the terminal outcome, then delete the local
artifact file (the delete-retry loop of the source collapses to a single
removal on a race-free disk).  `none` when the loop has not yet
terminated within the given responses: no counter is touched and the
artifact is not deleted. -/
def processUploadItem (c : ClientCounters) (d : Disk) (output : String)
    (responses : List (Option String)) : Option (ClientCounters × Disk) :=
  match uploadLoop 3 responses with
  | none => none
  | some (success, _) =>
      let c := if success then { c with completed := c.completed + 1 }
               else { c with failed := c.failed + 1 }
      some (c, d.removeFile output)

/-- C8: per item, a `"saved"` response ends the retry loop successfully at
once; a `"bad upload"` response consumes one unit of the budget of 3
retries and a `"bad upload"` with exhausted budget (the 4th in a row) is
terminal failure; any other non-connection response is immediately
terminal failure; a connection failure is retried indefinitely (never
terminal by itself); and the local artifact is deleted exactly once, by
the item processing after the terminal outcome — never while the loop is
still retrying — with the success counter incremented on success and the
failure counter on failure. -/
theorem upload_queue_retry (c : ClientCounters) (d : Disk) (output : String) :
    (∀ rest : List (Option String), uploadLoop 3 (some "saved" :: rest) = some (true, rest)) ∧
    (∀ (t : String) (rest : List (Option String)) (u : Nat), t ≠ "saved" → t ≠ "bad upload" →
      uploadLoop u (some t :: rest) = some (false, rest)) ∧
    (∀ (u : Nat) (rest : List (Option String)), u > 0 →
      uploadLoop u (some "bad upload" :: rest) = uploadLoop (u - 1) rest) ∧
    (∀ rest : List (Option String), uploadLoop 0 (some "bad upload" :: rest) = some (false, rest)) ∧
    (∀ n : Nat, n ≤ 3 → uploadLoop 3 (List.replicate n (some "bad upload")) = none) ∧
    (∀ rest : List (Option String),
      uploadLoop 3 (List.replicate 4 (some "bad upload") ++ rest) = some (false, rest)) ∧
    (∀ (u : Nat) (rest : List (Option String)), uploadLoop u (none :: rest) = uploadLoop u rest) ∧
    (∀ u n : Nat, uploadLoop u (List.replicate n none) = none) ∧
    (∀ responses : List (Option String),
      processUploadItem c d output responses = none ↔ uploadLoop 3 responses = none) ∧
    (∀ (responses : List (Option String)) (cc : ClientCounters) (dd : Disk),
      processUploadItem c d output responses = some (cc, dd) →
      dd = d.removeFile output ∧
      ∀ (b : Bool) (rest2 : List (Option String)), uploadLoop 3 responses = some (b, rest2) →
        ((b = true → cc.completed = c.completed + 1 ∧ cc.failed = c.failed) ∧
         (b = false → cc.failed = c.failed + 1 ∧ cc.completed = c.completed))) := by
  refine ⟨?_, ?_, ?_, ?_, ?_, ?_, ?_, ?_, ?_, ?_⟩
  · intro rest
    simp [uploadLoop]
  · intro t rest u ht1 ht2
    simp [uploadLoop, ht1, ht2]
  · intro u rest hu
    simp [uploadLoop, hu]
  · intro rest
    simp [uploadLoop]
  · intro n hn
    interval_cases n <;> decide
  · intro rest
    simp [uploadLoop, List.replicate_succ]
  · intro u rest
    rfl
  · intro u n
    induction n with
    | zero => rfl
    | succ m ih => simpa [List.replicate_succ, uploadLoop] using ih
  · intro responses
    unfold processUploadItem
    cases hl : uploadLoop 3 responses with
    | none => simp
    | some br => simp
  · intro responses cc dd h
    unfold processUploadItem at h
    cases hl : uploadLoop 3 responses with
    | none =>
        rw [hl] at h
        exact Option.noConfusion h
    | some br =>
        obtain ⟨b, rest⟩ := br
        rw [hl] at h
        simp only [Option.some.injEq, Prod.mk.injEq] at h
        refine ⟨h.2.symm, ?_⟩
        intro b' rest2 hl2
        simp only [Option.some.injEq, Prod.mk.injEq] at hl2
        obtain ⟨rfl, rfl⟩ := hl2
        cases b with
        | true =>
            refine ⟨fun _ => ?_, fun hfalse => (Bool.true_eq_false.mp hfalse).elim⟩
            rw [← h.1]
            simp
        | false =>
            refine ⟨fun htrue => (Bool.false_eq_true.mp htrue).elim, fun _ => ?_⟩
            rw [← h.1]
            simp

/-- Witness for `upload_queue_retry`: the bad, bad, saved scenario — the
item succeeds on the third attempt and the artifact is deleted once,
after the terminal outcome. -/
theorem upload_queue_retry_witness :
    (3 : Nat) > 0 ∧
    uploadLoop 3 [some "bad upload", some "saved"] = uploadLoop 2 [some "saved"] ∧
    uploadLoop 3 [some "bad upload", some "bad upload", some "saved"] = some (true, []) ∧
    processUploadItem ⟨0, 0⟩ ⟨[("out.ivf", 10)], []⟩ "out.ivf"
        [some "bad upload", some "bad upload", some "saved"]
      = some (⟨1, 0⟩, Disk.removeFile ⟨[("out.ivf", 10)], []⟩ "out.ivf") :=
  ⟨by decide,
   (upload_queue_retry ⟨0, 0⟩ ⟨[("out.ivf", 10)], []⟩ "out.ivf").2.2.1 3
     [some "saved"] (by decide),
   by decide, by decide⟩

/-! ### Claim C9: worker-pool shrink checks (src/client.py) -/

/-- Client-side worker record: identity, the `stopped` kill flag, whether
it currently holds the fetch lock, and whether it has a job or a live
encoder subprocess. -/
structure WorkerC where
  wid : Nat
  stopped : Bool
  lock_acquired : Bool
  hasJob : Bool
  hasPipe : Bool
  deriving Repr, DecidableEq

/-- Pool-level state of the `Client`: the worker list, the target size
`numworkers`, and the two pool-wide locks (a Python `Lock` is a bare
locked/unlocked flag; `release` works regardless of owner). -/
structure ClientPool where
  workers : List WorkerC
  numworkers : Nat
  fetchLockHeld : Bool
  downloadLockHeld : Bool
  deriving Repr, DecidableEq

/-- `Client.remove_worker` (src/client.py lines 348-350): remove the first
matching worker, a no-op when absent. -/
def ClientPool.remove_worker (c : ClientPool) (w : WorkerC) : ClientPool :=
  { c with workers := c.workers.eraseP (fun x => x.wid == w.wid) }

/-- Loop-boundary check at the top of `Worker.work` right after acquiring
the fetch lock (src/client.py lines 510-514): when the pool is oversized
or the worker was stopped, release the fetch lock (if still locked),
remove the worker from the pool, and return from `work` — no job is
fetched.  The result is `some` of the pool state at exit, `none` when the
worker continues its loop instead.  The download lock is not held at this
site and is left untouched. -/
def Worker.loopCheck (c : ClientPool) (w : WorkerC) : Option ClientPool :=
  if c.workers.length > c.numworkers ∨ w.stopped then
    let c := if c.fetchLockHeld then { c with fetchLockHeld := false } else c
    some (c.remove_worker w)
  else none

/-- Loop-boundary check inside the fetch retry wait
(src/client.py lines 527-534): same condition, but the worker holds the
download lock here and releases it unconditionally along with the fetch
lock before removing itself and returning. -/
def Worker.retryWaitCheck (c : ClientPool) (w : WorkerC) : Option ClientPool :=
  if c.workers.length > c.numworkers ∨ w.stopped then
    let c := if c.fetchLockHeld then { c with fetchLockHeld := false } else c
    let c := { c with downloadLockHeld := false }
    some (c.remove_worker w)
  else none

/-- The menu "remove" action (src/client.py lines 417-422): decrement
`numworkers` (floored at 0), then wake a waiting worker either by
releasing the fetch lock (when some idle worker is blocked acquiring it)
or by setting the worker timer event (reported in the returned Bool); no
worker is killed, stopped, or removed here. -/
def ClientPool.removeAction (c : ClientPool) : ClientPool × Bool :=
  let c := { c with numworkers := c.numworkers - 1 }
  if c.fetchLockHeld ∧ c.workers.any (fun w => ¬ w.hasJob ∧ ¬ w.lock_acquired) then
    ({ c with fetchLockHeld := false }, false)
  else if c.workers.any (fun w => w.lock_acquired) then
    (c, true)
  else (c, false)

/-- C9: whenever a worker reaches a loop-boundary check (after acquiring
the fetch lock, or during a retry-wait iteration) and the pool holds more
workers than `numworkers` or the worker has been stopped, it exits: the
check yields `some` exit state in which the fetch lock is released, the
download lock is additionally released at the retry-wait site (the only
site where the worker holds it) and untouched at the top-of-loop site,
and the worker is removed from the pool's worker list; conversely the
checks let the worker continue (`none`) when the condition fails.
Shrinking `numworkers` via the remove action kills no worker directly:
the worker list and every worker record are left untouched. -/
theorem worker_shrink_checks (c : ClientPool) (w : WorkerC)
    (hover : c.workers.length > c.numworkers ∨ w.stopped = true) :
    (∃ c1, Worker.loopCheck c w = some c1 ∧
      c1.fetchLockHeld = false ∧
      c1.downloadLockHeld = c.downloadLockHeld ∧
      c1.workers = c.workers.eraseP (fun x => x.wid == w.wid) ∧
      c1.numworkers = c.numworkers) ∧
    (∃ c2, Worker.retryWaitCheck c w = some c2 ∧
      c2.fetchLockHeld = false ∧
      c2.downloadLockHeld = false ∧
      c2.workers = c.workers.eraseP (fun x => x.wid == w.wid) ∧
      c2.numworkers = c.numworkers) ∧
    ((c.removeAction).1.workers = c.workers ∧
      (c.removeAction).1.numworkers = c.numworkers - 1) ∧
    (∀ c' w', c'.workers.length ≤ c'.numworkers → w'.stopped = false →
      Worker.loopCheck c' w' = none ∧ Worker.retryWaitCheck c' w' = none) := by
  have hcond : c.workers.length > c.numworkers ∨ w.stopped := by
    rcases hover with h | h
    · exact Or.inl h
    · exact Or.inr h
  refine ⟨?_, ?_, ?_, ?_⟩
  · refine ⟨(if c.fetchLockHeld then { c with fetchLockHeld := false } else c).remove_worker w,
      ?_, ?_, ?_, ?_, ?_⟩
    · unfold Worker.loopCheck
      rw [if_pos hcond]
    all_goals
      by_cases hl : c.fetchLockHeld = true <;>
        simp [ClientPool.remove_worker, hl]
  · refine ⟨ClientPool.remove_worker
      { (if c.fetchLockHeld then { c with fetchLockHeld := false } else c) with
        downloadLockHeld := false } w,
      ?_, ?_, ?_, ?_, ?_⟩
    · unfold Worker.retryWaitCheck
      rw [if_pos hcond]
    all_goals
      by_cases hl : c.fetchLockHeld = true <;>
        simp [ClientPool.remove_worker, hl]
  · constructor <;>
      · dsimp only [ClientPool.removeAction]
        split_ifs <;> rfl
  · intro c' w' hle hstop
    have hnc : ¬ (c'.workers.length > c'.numworkers ∨ w'.stopped) := by
      rw [hstop]
      simp [Nat.not_lt.mpr hle]
    constructor
    · unfold Worker.loopCheck
      rw [if_neg hnc]
    · unfold Worker.retryWaitCheck
      rw [if_neg hnc]

/-- Worker mid-encode (live pipe, has a job). -/
def poolWorkerBusy : WorkerC :=
  { wid := 1, stopped := false, lock_acquired := false, hasJob := true, hasPipe := true }

/-- Idle worker holding the fetch lock at its loop boundary. -/
def poolWorkerIdle : WorkerC :=
  { wid := 2, stopped := false, lock_acquired := true, hasJob := false, hasPipe := false }

/-- Pool shrunk from 2 workers to a target of 1. -/
def samplePool : ClientPool :=
  { workers := [poolWorkerBusy, poolWorkerIdle], numworkers := 1,
    fetchLockHeld := true, downloadLockHeld := true }

/-- Witness for `worker_shrink_checks` on the concrete shrunken pool. -/
theorem worker_shrink_checks_witness :
    samplePool.workers.length > samplePool.numworkers ∧
    ((∃ c1, Worker.loopCheck samplePool poolWorkerIdle = some c1 ∧
        c1.fetchLockHeld = false ∧
        c1.downloadLockHeld = samplePool.downloadLockHeld ∧
        c1.workers = samplePool.workers.eraseP (fun x => x.wid == poolWorkerIdle.wid) ∧
        c1.numworkers = samplePool.numworkers) ∧
     (∃ c2, Worker.retryWaitCheck samplePool poolWorkerIdle = some c2 ∧
        c2.fetchLockHeld = false ∧
        c2.downloadLockHeld = false ∧
        c2.workers = samplePool.workers.eraseP (fun x => x.wid == poolWorkerIdle.wid) ∧
        c2.numworkers = samplePool.numworkers) ∧
     ((samplePool.removeAction).1.workers = samplePool.workers ∧
      (samplePool.removeAction).1.numworkers = samplePool.numworkers - 1) ∧
     (∀ c' w', c'.workers.length ≤ c'.numworkers → w'.stopped = false →
       Worker.loopCheck c' w' = none ∧ Worker.retryWaitCheck c' w' = none)) :=
  ⟨by decide, worker_shrink_checks samplePool poolWorkerIdle (Or.inl (by decide))⟩

/-- Witness for `get_job_spec` at the concrete one-job registry. -/
theorem get_job_spec_witness :
    ((sampleState.get_job []).2 = sampleState ∧
     ((sampleState.get_job []).1 = none ↔
       ∀ j ∈ sampleState.all_jobs, jobExcluded [] j = true) ∧
     (∀ j, (sampleState.get_job []).1 = some j →
       j ∈ sampleState.all_jobs ∧ jobExcluded [] j = false ∧
       ∀ j' ∈ sampleState.all_jobs, jobExcluded [] j' = false →
         jobKeyLE j.sortKey j'.sortKey = true)) :=
  get_job_spec sampleState []

/-- Witness for `complete_status_iff` at the concrete sample project. -/
theorem complete_status_iff_witness :
    ((sampleProject.complete).status = "complete" ↔
      (sampleProject.jobs = [] ∧ sampleProject.get_frames = sampleProject.total_frames) ∨
      sampleProject.status = "complete") :=
  complete_status_iff sampleProject
